import Mathlib

/-!
Shallow embedding of the sales-dashboard pipeline (`src/app.py`).

The program is a linear pipeline: load CSV → filter by region/product →
aggregate (monthly / regional / product, plus scalar KPIs) → OLS forecast
over the *unfiltered* monthly revenue → insight (top region).

Modelling conventions:
* `SalePrice` (a decimal) and all revenue values are `ℚ` (exact arithmetic;
  the pandas/numpy floats are modelled as exact rationals).
* pandas `Month` strings `"YYYY-MM"` are modelled by the `Month` structure;
  lexicographic string order on zero-padded 4-digit-year labels coincides
  with the (year, month) lexicographic order used here.
* `df.groupby(k)[v].sum()` sorts the group keys ascending (pandas default
  `sort=True`); it is modelled by summing over the ascending-sorted
  deduplicated key list.
* `Series.sort_values(ascending=False)` is modelled as a stable descending
  sort (numpy's sort is an insertion sort on the small arrays arising
  here, which is stable).
* `sklearn.linear_model.LinearRegression` is modelled by the closed-form
  ordinary-least-squares slope/intercept.  `ℚ` division by zero being `0`,
  the degenerate one-point fit yields slope `0` and intercept `y₀`,
  matching sklearn's centred minimal-norm solution on one sample.
* `st.warning` + `st.stop()` on an empty selection is modelled by the
  render cycle returning `none`.
-/

/-- A calendar date, as parsed from the `OrderDate` column. -/
structure Date where
  year : Nat
  month : Nat
  day : Nat
deriving DecidableEq, Repr

/-- A year-month bucket, the model of the `"YYYY-MM"` strings produced by
`df['OrderDate'].dt.to_period('M').astype(str)`. -/
structure Month where
  year : Nat
  mon : Nat
deriving DecidableEq, Repr

/-- Chronological order on month buckets: the order in which pandas sorts
the `"YYYY-MM"` group keys. -/
def Month.le (a b : Month) : Prop :=
  a.year < b.year ∨ (a.year = b.year ∧ a.mon ≤ b.mon)

instance : DecidableRel Month.le := fun a b => by
  unfold Month.le; infer_instance

/-- One CSV row: `OrderDate, Region, Product, UnitsSold, SalePrice`. -/
structure Transaction where
  orderDate : Date
  region : String
  product : String
  unitsSold : Nat
  salePrice : ℚ
deriving DecidableEq, Repr

/-- Derived column `Revenue = UnitsSold * SalePrice` (`load_data`). -/
def Transaction.revenue (t : Transaction) : ℚ :=
  (t.unitsSold : ℚ) * t.salePrice

/-- Derived column `Month` (year-month bucket of `OrderDate`). -/
def Transaction.month (t : Transaction) : Month :=
  ⟨t.orderDate.year, t.orderDate.month⟩

/-- The loaded dataset: an ordered sequence of transactions. -/
abbrev Dataset := List Transaction

/-- The user's sidebar selection: the two multiselect widgets. -/
structure Selection where
  regions : List String
  products : List String
deriving DecidableEq, Repr

/-- Model of `pd.Series.unique()`: distinct values in first-seen order (used for the
multiselect defaults). -/
def uniqueFS (l : List String) : List String :=
  l.foldl (fun acc x => if x ∈ acc then acc else acc ++ [x]) []

/-- The default sidebar selection: all distinct regions and products. -/
def defaultSelection (d : Dataset) : Selection :=
  ⟨uniqueFS (d.map Transaction.region), uniqueFS (d.map Transaction.product)⟩

/-- Model of `df.query("Region == @region & Product == @product")`: keep rows whose
region and product are each in the selected list, in original order. -/
def df_selection (d : Dataset) (s : Selection) : Dataset :=
  d.filter (fun t => decide (t.region ∈ s.regions ∧ t.product ∈ s.products))

/-- Model of `groupby(key)[val].sum()` applied to a precomputed ascending key list:
each key is paired with the sum of `val` over its group. -/
def groupSums {α : Type} [DecidableEq α] (key : Transaction → α) (val : Transaction → ℚ)
    (keys : List α) (sel : Dataset) : List (α × ℚ) :=
  keys.map (fun k => (k, ((sel.filter (fun t => decide (key t = k))).map val).sum))

/-- The distinct months of a dataset, sorted ascending (pandas groupby key
order on the `"YYYY-MM"` strings). -/
def sortedMonths (sel : Dataset) : List Month :=
  List.insertionSort Month.le (sel.map Transaction.month).dedup

/-- Model of `monthly_revenue = df_selection.groupby('Month')['Revenue'].sum()` —
also reused for `monthly_data` on the unfiltered frame. -/
def monthly_revenue (sel : Dataset) : List (Month × ℚ) :=
  groupSums Transaction.month Transaction.revenue (sortedMonths sel) sel

/-- The distinct regions of a dataset, sorted ascending (pandas groupby
key order). -/
def sortedRegions (sel : Dataset) : List String :=
  List.insertionSort (· ≤ ·) (sel.map Transaction.region).dedup

/-- Descending-by-value order on `(category, value)` rows, the sort key of
`sort_values(ascending=False)`. -/
def valGe (a b : String × ℚ) : Prop := b.2 ≤ a.2

instance : DecidableRel valGe := fun a b => by
  unfold valGe; infer_instance

instance : IsTotal (String × ℚ) valGe :=
  ⟨fun a b => (le_total b.2 a.2).imp id id⟩

instance : IsTrans (String × ℚ) valGe :=
  ⟨fun _ _ _ h1 h2 => le_trans h2 h1⟩

/-- Model of `sales_by_region = df_selection.groupby('Region')['Revenue'].sum()
.sort_values(ascending=False)`: group (keys ascending), then stable
descending sort by summed revenue. -/
def sales_by_region (sel : Dataset) : List (String × ℚ) :=
  List.insertionSort valGe
    (groupSums Transaction.region Transaction.revenue (sortedRegions sel) sel)

/-- The distinct products of a dataset, sorted ascending. -/
def sortedProducts (sel : Dataset) : List String :=
  List.insertionSort (· ≤ ·) (sel.map Transaction.product).dedup

/-- Model of `sales_by_product = df_selection.groupby('Product')['UnitsSold'].sum()
.sort_values(ascending=False)`. -/
def sales_by_product (sel : Dataset) : List (String × ℚ) :=
  List.insertionSort valGe
    (groupSums Transaction.product (fun t => (t.unitsSold : ℚ)) (sortedProducts sel) sel)

/-- Round a rational to the nearest integer, ties to even (Python's
`round` tie-breaking, on the exact value). -/
def roundHalfEven (x : ℚ) : ℤ :=
  let f := ⌊x⌋
  let r := x - f
  if r < 1/2 then f
  else if 1/2 < r then f + 1
  else if f % 2 = 0 then f else f + 1

/-- Python `round(x, 2)`: round to 2 decimal places (exact-value model). -/
def round2 (x : ℚ) : ℚ := (roundHalfEven (x * 100) : ℚ) / 100

/-- Model of `total_revenue = int(df_selection["Revenue"].sum())`.  (Python `int()`
truncates toward zero; on the non-negative sums produced here it is the
floor.) -/
def total_revenue (sel : Dataset) : ℤ :=
  ⌊(sel.map Transaction.revenue).sum⌋

/-- Model of `total_units_sold = int(df_selection["UnitsSold"].sum())`. -/
def total_units_sold (sel : Dataset) : ℕ :=
  (sel.map Transaction.unitsSold).sum

/-- Model of `avg_sale_price = round(df_selection["SalePrice"].mean(), 2)` —
pandas `mean` is sum divided by row count. -/
def avg_sale_price (sel : Dataset) : ℚ :=
  round2 ((sel.map Transaction.salePrice).sum / (sel.length : ℚ))

/-- Model of `monthly_data = df.groupby('Month')['Revenue'].sum()` — the forecast's
input is the *unfiltered* dataset's monthly revenue aggregate. -/
def monthly_data (d : Dataset) : List (Month × ℚ) :=
  monthly_revenue d

/-- The `y` column handed to the regression: the revenue values of
`monthly_data`, in chronological order (`Month_Num = 0, 1, ...`). -/
def ysOf (d : Dataset) : List ℚ :=
  (monthly_data d).map Prod.snd

/-- The sum `Σ_{i<n} i` over `ℚ`: the sum of the regression's x-values. -/
def sumX (n : ℕ) : ℚ := ∑ i in Finset.range n, (i : ℚ)

/-- The sum `Σ_{i<n} i²` over `ℚ`. -/
def sumXX (n : ℕ) : ℚ := ∑ i in Finset.range n, (i : ℚ) ^ 2

/-- The sum `Σ_i i·yᵢ` over `ℚ`. -/
def sumXY (ys : List ℚ) : ℚ :=
  ∑ i in Finset.range ys.length, (i : ℚ) * ys.getD i 0

/-- Closed-form OLS slope of `model.fit(X, y)` with `X = [0, …, n-1]`. -/
def olsSlope (ys : List ℚ) : ℚ :=
  ((ys.length : ℚ) * sumXY ys - sumX ys.length * ys.sum) /
    ((ys.length : ℚ) * sumXX ys.length - sumX ys.length ^ 2)

/-- Closed-form OLS intercept of `model.fit(X, y)`. -/
def olsIntercept (ys : List ℚ) : ℚ :=
  (ys.sum - olsSlope ys * sumX ys.length) / (ys.length : ℚ)

/-- Model of `model.predict([[m]])`. -/
def olsPredict (ys : List ℚ) (m : ℚ) : ℚ :=
  olsIntercept ys + olsSlope ys * m

/-- Model of `future_sales = model.predict(np.arange(n, n + 6))`. -/
def future_sales (d : Dataset) : List ℚ :=
  (List.range 6).map (fun k => olsPredict (ysOf d) ((ysOf d).length + k : ℕ))

/-- pandas `Period('M') + k`: advance a year-month bucket by `k` calendar
months, rolling over year boundaries. -/
def addMonths (m : Month) (k : ℕ) : Month :=
  let t := m.year * 12 + (m.mon - 1) + k
  ⟨t / 12, t % 12 + 1⟩

/-- The calendar successor of a month, with year rollover — the spec's
notion of "the next calendar month". -/
def nextMonth (m : Month) : Month :=
  if m.mon = 12 then ⟨m.year + 1, 1⟩ else ⟨m.year, m.mon + 1⟩

/-- Model of `last_month = pd.to_datetime(monthly_data['Month'].iloc[-1])`: the last
(chronologically greatest) month of the historical aggregate.  (`iloc[-1]`
on an empty frame raises; the default is never reached under the claims'
non-empty hypotheses.) -/
def last_month (d : Dataset) : Month :=
  ((monthly_data d).map Prod.fst).getLastD ⟨0, 1⟩

/-- Model of `future_month_labels = [(last_month + i) for i in range(1, 7)]`. -/
def future_month_labels (d : Dataset) : List Month :=
  (List.range 6).map (fun k => addMonths (last_month d) (k + 1))

/-- Model of `forecast_df`: the 6 `(month label, predicted revenue)` pairs. -/
def forecast_df (d : Dataset) : List (Month × ℚ) :=
  (future_month_labels d).zip (future_sales d)

/-- Everything the dashboard hands to the presentation layer in one render
cycle (KPIs, the three aggregate series, the forecast, the insight's top
region). -/
structure PageOutput where
  totalRevenue : ℤ
  totalUnits : ℕ
  avgSalePrice : ℚ
  monthly : List (Month × ℚ)
  byRegion : List (String × ℚ)
  byProduct : List (String × ℚ)
  forecastPoints : List (Month × ℚ)
  topRegion : String × ℚ
deriving DecidableEq, Repr

/-- One synchronous render cycle of `app.py`: filter, then either stop with
the "no data" warning (`none`, modelling `st.warning` + `st.stop()`) or
compute every KPI, aggregate, forecast point and the insight. -/
def renderCycle (d : Dataset) (s : Selection) : Option PageOutput :=
  let sel := df_selection d s
  if sel = [] then none
  else some
    { totalRevenue := total_revenue sel
      totalUnits := total_units_sold sel
      avgSalePrice := avg_sale_price sel
      monthly := monthly_revenue sel
      byRegion := sales_by_region sel
      byProduct := sales_by_product sel
      forecastPoints := forecast_df d
      topRegion := (sales_by_region sel).getD 0 ("", 0) }

/-! ### Example datasets used by witnesses and counterexamples -/

/-- The spec's example dataset: three months of `East`/`Widget` sales with
revenue 50, 100, 150. -/
def specExample : Dataset :=
  [⟨⟨2024, 1, 15⟩, "East", "Widget", 10, 5⟩,
   ⟨⟨2024, 2, 15⟩, "East", "Widget", 20, 5⟩,
   ⟨⟨2024, 3, 15⟩, "East", "Widget", 30, 5⟩]

/-- A two-region dataset (used to compare distinct filter selections). -/
def twoRegionD : Dataset :=
  [⟨⟨2024, 1, 10⟩, "East", "Widget", 10, 5⟩,
   ⟨⟨2024, 2, 20⟩, "West", "Widget", 4, 5⟩]

/-! ### Generic helper lemmas -/

theorem uniqueFS_mem_aux (l acc : List String) (x : String) :
    x ∈ l.foldl (fun a y => if y ∈ a then a else a ++ [y]) acc ↔ x ∈ acc ∨ x ∈ l := by
  induction l generalizing acc with
  | nil => simp
  | cons y ys ih =>
    simp only [List.foldl_cons]
    rw [ih]
    by_cases h : y ∈ acc <;> simp [h, List.mem_append, List.mem_cons] <;> aesop

theorem uniqueFS_mem (l : List String) (x : String) : x ∈ uniqueFS l ↔ x ∈ l := by
  unfold uniqueFS
  rw [uniqueFS_mem_aux]
  simp

/-- C5. Filtering with the default selection (all distinct regions and
products) returns the full dataset, element for element, in order. -/
theorem C5_default_filter_identity (d : Dataset) :
    df_selection d (defaultSelection d) = d := by
  unfold df_selection defaultSelection
  rw [List.filter_eq_self]
  intro t ht
  simp only [decide_eq_true_eq]
  exact ⟨(uniqueFS_mem _ _).mpr (List.mem_map_of_mem Transaction.region ht),
         (uniqueFS_mem _ _).mpr (List.mem_map_of_mem Transaction.product ht)⟩

/-- C7. An empty filtered subset short-circuits the render cycle: the
"no data" signal (`none`) is emitted and no KPI, aggregate, forecast or
insight is computed. -/
theorem C7_empty_selection_short_circuit (d : Dataset) (s : Selection)
    (h : df_selection d s = []) : renderCycle d s = none := by
  simp [renderCycle, h]

/-- Witness for C7: a concrete dataset and a selection matching nothing. -/
theorem C7_empty_selection_short_circuit_witness :
    df_selection twoRegionD ⟨["North"], ["Widget"]⟩ = [] ∧
    renderCycle twoRegionD ⟨["North"], ["Widget"]⟩ = none :=
  ⟨by decide, C7_empty_selection_short_circuit twoRegionD ⟨["North"], ["Widget"]⟩ (by decide)⟩

/-- C4. The forecast is a function of the unfiltered dataset only: two
render cycles that both survive the empty-selection guard hand the
presentation layer identical forecast points, whatever the selections. -/
theorem C4_forecast_filter_independent (d : Dataset) (s1 s2 : Selection)
    (h1 : df_selection d s1 ≠ []) (h2 : df_selection d s2 ≠ []) :
    (renderCycle d s1).map PageOutput.forecastPoints =
      (renderCycle d s2).map PageOutput.forecastPoints := by
  simp [renderCycle, h1, h2]

/-- Witness for C4: the all-values selection versus an `East`-only
selection over a two-region dataset. -/
theorem C4_forecast_filter_independent_witness :
    df_selection twoRegionD (defaultSelection twoRegionD) ≠ [] ∧
    df_selection twoRegionD ⟨["East"], ["Widget"]⟩ ≠ [] ∧
    (renderCycle twoRegionD (defaultSelection twoRegionD)).map PageOutput.forecastPoints =
      (renderCycle twoRegionD ⟨["East"], ["Widget"]⟩).map PageOutput.forecastPoints :=
  ⟨by decide, by decide,
   C4_forecast_filter_independent twoRegionD (defaultSelection twoRegionD)
     ⟨["East"], ["Widget"]⟩ (by decide) (by decide)⟩

/-- The spec's KPI formula: the unweighted arithmetic mean of the
per-transaction `salePrice` values (sum over count — not weighted by
units sold or by revenue). -/
def unweightedMeanPrice (sel : Dataset) : ℚ :=
  (sel.map Transaction.salePrice).sum / (sel.length : ℚ)

/-- C9. The average-sale-price KPI handed to the presentation layer is
the unweighted mean of the filtered subset's sale prices, rounded to two
decimal places. -/
theorem C9_unweighted_mean_price (d : Dataset) (s : Selection)
    (h : df_selection d s ≠ []) :
    (renderCycle d s).map PageOutput.avgSalePrice =
      some (round2 (unweightedMeanPrice (df_selection d s))) := by
  simp [renderCycle, h, avg_sale_price, unweightedMeanPrice]

/-- Witness for C9: prices 5 and 5 over two rows give a mean of 5. -/
theorem C9_unweighted_mean_price_witness :
    df_selection twoRegionD (defaultSelection twoRegionD) ≠ [] ∧
    (renderCycle twoRegionD (defaultSelection twoRegionD)).map PageOutput.avgSalePrice =
      some (round2 (unweightedMeanPrice (df_selection twoRegionD (defaultSelection twoRegionD)))) :=
  ⟨by decide,
   C9_unweighted_mean_price twoRegionD (defaultSelection twoRegionD) (by decide)⟩

/-! ### Aggregation conservation (C6) -/

theorem group_filter_sum_cons {α : Type} [DecidableEq α] (key : Transaction → α)
    (val : Transaction → ℚ) (t : Transaction) (ts : Dataset) (k : α) :
    (((t :: ts).filter (fun u => decide (key u = k))).map val).sum =
      (if key t = k then val t else 0) +
        ((ts.filter (fun u => decide (key u = k))).map val).sum := by
  by_cases h : key t = k <;> simp [List.filter_cons, h]

theorem sum_over_groups {α : Type} [DecidableEq α] (key : Transaction → α)
    (val : Transaction → ℚ) (keys : List α) (sel : Dataset)
    (hmem : ∀ t ∈ sel, key t ∈ keys) :
    (∑ k in keys.toFinset, ((sel.filter (fun t => decide (key t = k))).map val).sum) =
      (sel.map val).sum := by
  induction sel with
  | nil => simp
  | cons t ts ih =>
    have hsplit : ∀ k ∈ keys.toFinset,
        (((t :: ts).filter (fun u => decide (key u = k))).map val).sum =
          (if key t = k then val t else 0) +
            ((ts.filter (fun u => decide (key u = k))).map val).sum :=
      fun k _ => group_filter_sum_cons key val t ts k
    rw [Finset.sum_congr rfl hsplit, Finset.sum_add_distrib]
    have hkt : key t ∈ keys.toFinset :=
      List.mem_toFinset.mpr (hmem t (List.mem_cons_self t ts))
    rw [Finset.sum_ite_eq keys.toFinset (key t) (fun _ => val t), if_pos hkt]
    rw [ih (fun u hu => hmem u (List.mem_cons_of_mem t hu))]
    simp

theorem groupSums_conservation {α : Type} [DecidableEq α] (key : Transaction → α)
    (val : Transaction → ℚ) (keys : List α) (sel : Dataset)
    (hnd : keys.Nodup) (hmem : ∀ t ∈ sel, key t ∈ keys) :
    ((groupSums key val keys sel).map Prod.snd).sum = (sel.map val).sum := by
  unfold groupSums
  rw [List.map_map]
  have : (Prod.snd ∘ fun k => (k, ((sel.filter (fun t => decide (key t = k))).map val).sum)) =
      fun k => ((sel.filter (fun t => decide (key t = k))).map val).sum := rfl
  rw [this, ← List.sum_toFinset _ hnd, sum_over_groups key val keys sel hmem]

theorem sortedMonths_nodup (sel : Dataset) : (sortedMonths sel).Nodup :=
  ((List.perm_insertionSort Month.le _).nodup_iff).mpr (List.nodup_dedup _)

theorem mem_sortedMonths (sel : Dataset) (t : Transaction) (ht : t ∈ sel) :
    t.month ∈ sortedMonths sel := by
  unfold sortedMonths
  rw [List.mem_insertionSort, List.mem_dedup]
  exact List.mem_map_of_mem Transaction.month ht

/-- C6. Aggregation conservation: the monthly revenue aggregate's
values sum to the total revenue of the filtered subset. -/
theorem C6_aggregation_conservation (d : Dataset) (s : Selection)
    (_h : df_selection d s ≠ []) :
    ((monthly_revenue (df_selection d s)).map Prod.snd).sum =
      ((df_selection d s).map Transaction.revenue).sum := by
  exact groupSums_conservation Transaction.month Transaction.revenue _ _
    (sortedMonths_nodup _) (fun t ht => mem_sortedMonths _ t ht)

/-- Witness for C6: on the spec's example dataset the three monthly sums
50, 100, 150 add up to the total revenue 300. -/
theorem C6_aggregation_conservation_witness :
    df_selection specExample (defaultSelection specExample) ≠ [] ∧
    ((monthly_revenue (df_selection specExample (defaultSelection specExample))).map Prod.snd).sum =
      ((df_selection specExample (defaultSelection specExample)).map Transaction.revenue).sum :=
  ⟨by decide,
   C6_aggregation_conservation specExample (defaultSelection specExample) (by decide)⟩

/-! ### Forecast label contiguity (C1) -/

/-- A real calendar month bucket: the month number is between 1 and 12. -/
def validMonth (m : Month) : Prop := 1 ≤ m.mon ∧ m.mon ≤ 12

instance : DecidablePred validMonth := fun m => by
  unfold validMonth; infer_instance

theorem monthly_data_map_fst (d : Dataset) :
    (monthly_data d).map Prod.fst = sortedMonths d := by
  unfold monthly_data monthly_revenue groupSums
  rw [List.map_map]
  exact List.map_id _

theorem sortedMonths_ne_nil (d : Dataset) (h : d ≠ []) : sortedMonths d ≠ [] := by
  unfold sortedMonths
  intro hcon
  have hlen := (List.perm_insertionSort Month.le (d.map Transaction.month).dedup).length_eq
  rw [hcon] at hlen
  have : (d.map Transaction.month).dedup = [] := List.length_eq_zero.mp hlen.symm
  rw [List.dedup_eq_nil, List.map_eq_nil_iff] at this
  exact h this

theorem getLastD_mem {α : Type} : ∀ (l : List α) (a : α), l ≠ [] → l.getLastD a ∈ l
  | [], _, h => absurd rfl h
  | [x], _, _ => by simp
  | x :: y :: xs, _, _ => by
    rw [List.getLastD_cons]
    exact List.mem_cons_of_mem x (getLastD_mem (y :: xs) x (List.cons_ne_nil y xs))

theorem last_month_mem (d : Dataset) (h : d ≠ []) :
    last_month d ∈ d.map Transaction.month := by
  unfold last_month
  rw [monthly_data_map_fst]
  have hmem := getLastD_mem (sortedMonths d) ⟨0, 1⟩ (sortedMonths_ne_nil d h)
  unfold sortedMonths at hmem
  rw [List.mem_insertionSort, List.mem_dedup] at hmem
  exact hmem

theorem last_month_valid (d : Dataset) (h : d ≠ [])
    (hv : ∀ t ∈ d, validMonth t.month) : validMonth (last_month d) := by
  obtain ⟨t, ht, heq⟩ := List.mem_map.mp (last_month_mem d h)
  exact heq ▸ hv t ht

/-- Advancing by one month is the calendar successor (with year rollover)
whenever the starting point is a real calendar month. -/
theorem addMonths_one (m : Month) (hv : validMonth m) :
    addMonths m 1 = nextMonth m := by
  obtain ⟨h1, h12⟩ := hv
  unfold addMonths nextMonth
  by_cases h : m.mon = 12 <;> simp only [h, if_pos, if_neg] <;>
    · refine congrArg₂ Month.mk ?_ ?_ <;> omega

/-- Each further advancement step is again the calendar successor: the
`Period + i` arithmetic never skips or repeats a calendar month. -/
theorem addMonths_step (m : Month) (k : ℕ) :
    addMonths m (k + 1) = nextMonth (addMonths m k) := by
  unfold addMonths nextMonth
  by_cases h : (m.year * 12 + (m.mon - 1) + k) % 12 + 1 = 12 <;>
    simp only [h, if_pos, if_neg] <;>
    · refine congrArg₂ Month.mk ?_ ?_ <;> omega

theorem getD_range_map {α : Type} (f : ℕ → α) (dflt : α) (k n : ℕ) (h : k < n) :
    (((List.range n).map f).getD k dflt) = f k := by
  rw [List.getD_eq_getElem _ _ (by simpa using h)]
  simp

/-- C1. The forecast is exactly 6 points; the k-th label is the last
observed month advanced by k calendar months, the first label is the
calendar successor of the last observed month, and consecutive labels are
calendar successors of one another — chronologically contiguous with the
history, with no gap or overlap, including across year boundaries. -/
theorem C1_forecast_six_contiguous_months (d : Dataset) (hne : d ≠ [])
    (hv : ∀ t ∈ d, validMonth t.month) :
    (forecast_df d).length = 6 ∧
    (∀ k, k < 6 → ((forecast_df d).map Prod.fst).getD k ⟨0, 1⟩ =
      addMonths (last_month d) (k + 1)) ∧
    ((forecast_df d).map Prod.fst).getD 0 ⟨0, 1⟩ = nextMonth (last_month d) ∧
    (∀ k, k + 1 < 6 → ((forecast_df d).map Prod.fst).getD (k + 1) ⟨0, 1⟩ =
      nextMonth (((forecast_df d).map Prod.fst).getD k ⟨0, 1⟩)) := by
  have hlab : (future_month_labels d).length = 6 := by
    simp [future_month_labels]
  have hsal : (future_sales d).length = 6 := by
    simp [future_sales]
  have hfst : (forecast_df d).map Prod.fst = future_month_labels d := by
    unfold forecast_df
    exact List.map_fst_zip _ _ (by rw [hlab, hsal])
  have hget : ∀ k, k < 6 → ((forecast_df d).map Prod.fst).getD k ⟨0, 1⟩ =
      addMonths (last_month d) (k + 1) := by
    intro k hk
    rw [hfst]
    unfold future_month_labels
    exact getD_range_map _ _ k 6 hk
  refine ⟨?_, hget, ?_, ?_⟩
  · unfold forecast_df
    rw [List.length_zip, hlab, hsal]
    exact min_self 6
  · rw [hget 0 (by omega)]
    exact addMonths_one _ (last_month_valid d hne hv)
  · intro k hk
    rw [hget (k + 1) hk, hget k (by omega)]
    exact addMonths_step _ _

/-- Witness for C1: on the spec's example dataset (last month 2024-03) the
6 labels start at 2024-04 and are consecutive calendar months. -/
theorem C1_forecast_six_contiguous_months_witness :
    specExample ≠ [] ∧ (∀ t ∈ specExample, validMonth t.month) ∧
    (forecast_df specExample).length = 6 ∧
    ((forecast_df specExample).map Prod.fst).getD 0 ⟨0, 1⟩ =
      nextMonth (last_month specExample) :=
  ⟨by decide, by decide,
   (C1_forecast_six_contiguous_months specExample (by decide) (by decide)).1,
   (C1_forecast_six_contiguous_months specExample (by decide) (by decide)).2.2.1⟩

/-! ### Exact linear extrapolation (C2) -/

theorem sumX_closed (n : ℕ) : sumX n = (n : ℚ) * ((n : ℚ) - 1) / 2 := by
  induction n with
  | zero => simp [sumX]
  | succ m ih =>
    unfold sumX at ih ⊢
    rw [Finset.sum_range_succ, ih]
    push_cast
    ring

theorem sumXX_closed (n : ℕ) :
    sumXX n = (n : ℚ) * ((n : ℚ) - 1) * (2 * (n : ℚ) - 1) / 6 := by
  induction n with
  | zero => simp [sumXX]
  | succ m ih =>
    unfold sumXX at ih ⊢
    rw [Finset.sum_range_succ, ih]
    push_cast
    ring

theorem ols_denominator_pos (n : ℕ) (h : 2 ≤ n) :
    0 < (n : ℚ) * sumXX n - sumX n ^ 2 := by
  have h2 : (2 : ℚ) ≤ (n : ℚ) := by exact_mod_cast h
  have key : (n : ℚ) * sumXX n - sumX n ^ 2 =
      (n : ℚ) ^ 2 * (((n : ℚ) - 1) * (((n : ℚ) + 1) / 12)) := by
    rw [sumX_closed, sumXX_closed]; ring
  rw [key]
  have hn : (0 : ℚ) < (n : ℚ) ^ 2 := by positivity
  have hm : (0 : ℚ) < (n : ℚ) - 1 := by linarith
  have hp : (0 : ℚ) < ((n : ℚ) + 1) / 12 := by positivity
  exact mul_pos hn (mul_pos hm hp)

theorem list_sum_getD (l : List ℚ) :
    l.sum = ∑ i in Finset.range l.length, l.getD i 0 := by
  induction l with
  | nil => simp
  | cons x xs ih =>
    rw [List.sum_cons, List.length_cons, Finset.sum_range_succ', ih]
    simp [add_comm]

theorem arith_seq_getD (ys : List ℚ) (δ : ℚ)
    (hstep : ∀ i, i + 1 < ys.length → ys.getD (i + 1) 0 = ys.getD i 0 + δ) :
    ∀ i, i < ys.length → ys.getD i 0 = ys.getD 0 0 + δ * (i : ℚ) := by
  intro i
  induction i with
  | zero => intro _; simp
  | succ j ih =>
    intro h
    rw [hstep j (by omega), ih (by omega)]
    push_cast
    ring

/-- On data lying exactly on a line, the OLS fit recovers the line's slope
and intercept exactly. -/
theorem ols_exact_on_affine (ys : List ℚ) (c δ : ℚ) (h2 : 2 ≤ ys.length)
    (hy : ∀ i, i < ys.length → ys.getD i 0 = c + δ * (i : ℚ)) :
    olsSlope ys = δ ∧ olsIntercept ys = c := by
  have hden := ols_denominator_pos ys.length h2
  have hSy : ys.sum = (ys.length : ℚ) * c + δ * sumX ys.length := by
    rw [list_sum_getD]
    have : ∀ i ∈ Finset.range ys.length, ys.getD i 0 = c + δ * (i : ℚ) :=
      fun i hi => hy i (Finset.mem_range.mp hi)
    rw [Finset.sum_congr rfl this, Finset.sum_add_distrib, Finset.sum_const,
      Finset.card_range, nsmul_eq_mul, ← Finset.mul_sum]
    rfl
  have hSxy : sumXY ys = c * sumX ys.length + δ * sumXX ys.length := by
    unfold sumXY sumX sumXX
    have : ∀ i ∈ Finset.range ys.length,
        (i : ℚ) * ys.getD i 0 = c * (i : ℚ) + δ * (i : ℚ) ^ 2 := by
      intro i hi
      rw [hy i (Finset.mem_range.mp hi)]
      ring
    rw [Finset.sum_congr rfl this, Finset.sum_add_distrib, ← Finset.mul_sum, ← Finset.mul_sum]
  have hslope : olsSlope ys = δ := by
    unfold olsSlope
    rw [hSxy, hSy, div_eq_iff (ne_of_gt hden)]
    ring
  refine ⟨hslope, ?_⟩
  have hn : (ys.length : ℚ) ≠ 0 := by
    have : (2 : ℚ) ≤ (ys.length : ℚ) := by exact_mod_cast h2
    linarith
  unfold olsIntercept
  rw [hslope, hSy, mul_comm δ (sumX ys.length)]
  field_simp

theorem getLastD_eq_getD_pred (l : List ℚ) :
    l.getLastD 0 = l.getD (l.length - 1) 0 := by
  rw [List.getLastD_eq_getLast?, List.getLast?_eq_getElem?, List.getD_eq_getElem?_getD]

/-- C2. If the monthly revenue sequence of the (unfiltered) dataset
rises by a constant δ per chronological month, the forecast at horizon
`j + 1` (for the 6 horizons `j < 6`) is exactly the last observed revenue
plus `(j + 1)·δ`. -/
theorem C2_exact_linear_extrapolation (d : Dataset) (δ : ℚ)
    (h2 : 2 ≤ (ysOf d).length)
    (hstep : ∀ i, i + 1 < (ysOf d).length →
      (ysOf d).getD (i + 1) 0 = (ysOf d).getD i 0 + δ) :
    ∀ j, j < 6 → ((forecast_df d).map Prod.snd).getD j 0 =
      (ysOf d).getLastD 0 + ((j : ℚ) + 1) * δ := by
  intro j hj
  have hlab : (future_month_labels d).length = 6 := by simp [future_month_labels]
  have hsal : (future_sales d).length = 6 := by simp [future_sales]
  have hsnd : (forecast_df d).map Prod.snd = future_sales d := by
    unfold forecast_df
    exact List.map_snd_zip _ _ (by rw [hlab, hsal])
  rw [hsnd]
  unfold future_sales
  rw [getD_range_map _ _ j 6 hj]
  set c := (ysOf d).getD 0 0 with hc
  have hy := arith_seq_getD (ysOf d) δ hstep
  obtain ⟨hs, hi⟩ := ols_exact_on_affine (ysOf d) c δ h2 (fun i h => hy i h)
  unfold olsPredict
  rw [hs, hi, getLastD_eq_getD_pred, hy ((ysOf d).length - 1) (by omega)]
  have hlen : ((ysOf d).length - 1 : ℕ) = ((ysOf d).length : ℚ) - 1 := by
    have : 1 ≤ (ysOf d).length := by omega
    push_cast [Nat.cast_sub this]
    ring
  push_cast [hlen]
  ring

/-- Witness for C2: on the spec's example dataset (monthly revenue 50, 100,
150, δ = 50) the first forecast value is 150 + 1·50 = 200. -/
theorem C2_exact_linear_extrapolation_witness :
    2 ≤ (ysOf specExample).length ∧
    ((forecast_df specExample).map Prod.snd).getD 0 0 = 200 := by
  have hys : ysOf specExample = [50, 100, 150] := by
    norm_num [ysOf, monthly_data, monthly_revenue, groupSums, sortedMonths, specExample,
      Transaction.month, Transaction.revenue, List.insertionSort, List.orderedInsert,
      List.dedup, List.pwFilter, Month.le, Month.mk.injEq]
  have hstep : ∀ i, i + 1 < (ysOf specExample).length →
      (ysOf specExample).getD (i + 1) 0 = (ysOf specExample).getD i 0 + 50 := by
    rw [hys]
    intro i hi
    simp only [List.length_cons, List.length_nil] at hi
    have hub : i < 2 := by omega
    interval_cases i <;> norm_num
  have h := C2_exact_linear_extrapolation specExample 50 (by rw [hys]; norm_num) hstep 0
    (by norm_num)
  refine ⟨by rw [hys]; norm_num, ?_⟩
  rw [h, hys]
  norm_num [List.getLastD]

/-! ### Single-month forecasting (C3) and negative forecasts (C10) -/

/-- A dataset with exactly one distinct month (the spec's
`InsufficientHistoryError` case). -/
def singleMonthD : Dataset := [⟨⟨2024, 1, 15⟩, "East", "Widget", 10, 5⟩]

/-- C3 (code behaviour at the failing input). With a single distinct
month the code raises no error at all: the degenerate fit (slope 0,
intercept equal to the one observed revenue 50) silently extrapolates a
constant forecast of 50 for all 6 months — the guard the spec requires
does not exist in the source. -/
theorem C3_single_month_silent_forecast :
    (monthly_data singleMonthD).length = 1 ∧
    forecast_df singleMonthD =
      [(⟨2024, 2⟩, 50), (⟨2024, 3⟩, 50), (⟨2024, 4⟩, 50),
       (⟨2024, 5⟩, 50), (⟨2024, 6⟩, 50), (⟨2024, 7⟩, 50)] := by
  constructor
  · decide
  · norm_num [forecast_df, future_month_labels, future_sales, last_month, monthly_data,
      monthly_revenue, groupSums, sortedMonths, singleMonthD, Transaction.month,
      Transaction.revenue, List.insertionSort, List.orderedInsert, List.dedup,
      List.pwFilter, Month.le, Month.mk.injEq, addMonths, olsPredict, olsIntercept,
      olsSlope, ysOf, sumX, sumXX, sumXY, Finset.sum_range_succ, Finset.sum_range_zero,
      List.range, List.range.loop, List.zip, List.zipWith]

/-- A dataset whose monthly revenue falls by 50 per month (100, then 50). -/
def decreasingD : Dataset :=
  [⟨⟨2024, 1, 10⟩, "East", "Widget", 100, 1⟩,
   ⟨⟨2024, 2, 10⟩, "East", "Widget", 50, 1⟩]

/-- C10. The forecast is never clamped at zero: on a dataset whose
monthly revenue falls by a constant 50, the emitted predictions are
0, −50, …, −250 — negative values are handed to the chart as-is. -/
theorem C10_no_zero_clamp :
    (forecast_df decreasingD).map Prod.snd = [0, -50, -100, -150, -200, -250] ∧
    ((forecast_df decreasingD).map Prod.snd).getD 1 0 < 0 := by
  have hval : (forecast_df decreasingD).map Prod.snd = [0, -50, -100, -150, -200, -250] := by
    norm_num [forecast_df, future_month_labels, future_sales, last_month, monthly_data,
      monthly_revenue, groupSums, sortedMonths, decreasingD, Transaction.month,
      Transaction.revenue, List.insertionSort, List.orderedInsert, List.dedup,
      List.pwFilter, Month.le, Month.mk.injEq, addMonths, olsPredict, olsIntercept,
      olsSlope, ysOf, sumX, sumXX, sumXY, Finset.sum_range_succ, Finset.sum_range_zero,
      List.range, List.range.loop, List.zip, List.zipWith]
  refine ⟨hval, ?_⟩
  rw [hval]
  norm_num

/-! ### Regional ordering and tie-breaking (C8) -/

/-- Index of a region's first appearance in the dataset's original row
order (the claim's "first-seen" order). -/
def firstSeenIdx (sel : Dataset) (r : String) : ℕ :=
  (sel.map Transaction.region).indexOf r

/-- C8 exactly as claimed, instantiated at a filtered subset: the regional
aggregate is sorted descending by revenue and ties appear in first-seen
region order. -/
def claimC8At (sel : Dataset) : Prop :=
  (sales_by_region sel).Sorted valGe ∧
  (sales_by_region sel).Pairwise
    (fun a b => a.2 = b.2 → firstSeenIdx sel a.1 < firstSeenIdx sel b.1)

/-- Two regions with equal revenue, `B` appearing first in the data. -/
def tieRegionD : Dataset :=
  [⟨⟨2024, 1, 5⟩, "B", "W", 1, 1⟩,
   ⟨⟨2024, 1, 6⟩, "A", "W", 1, 1⟩]

theorem sortedRegions_tie : sortedRegions tieRegionD = ["A", "B"] := by
  simp only [sortedRegions, tieRegionD, Transaction.region, List.dedup, List.pwFilter,
    List.insertionSort, List.orderedInsert, List.map_cons, List.map_nil]
  norm_num
  decide

theorem sales_by_region_tie : sales_by_region tieRegionD = [("A", 1), ("B", 1)] := by
  rw [sales_by_region, sortedRegions_tie]
  have h1 : ¬ (("A" : String) = "B") := by decide
  have h2 : ¬ (("B" : String) = "A") := by decide
  norm_num [groupSums, tieRegionD, Transaction.region, Transaction.revenue,
    List.insertionSort, List.orderedInsert, valGe, List.filter_cons, List.filter_nil,
    decide_eq_true_eq, h1, h2]

/-- C8 counterexample. On a tied dataset whose first-seen region order
is `B` then `A`, the code emits `A` before `B` (pandas' groupby sorts the
keys alphabetically before the stable descending value sort), so ties do
NOT preserve first-seen order. -/
theorem C8_first_seen_tie_counterexample :
    tieRegionD ≠ [] ∧ ¬ claimC8At tieRegionD := by
  refine ⟨by decide, ?_⟩
  intro hcl
  have hp := hcl.2
  rw [sales_by_region_tie] at hp
  have h1 := (List.pairwise_cons.mp hp).1 ("B", 1) (List.mem_singleton.mpr rfl) rfl
  have h2 : ¬ (firstSeenIdx tieRegionD "A" < firstSeenIdx tieRegionD "B") := by
    decide
  exact h2 h1

theorem pairwise_orderedInsert {α : Type} (r : α → α → Prop) [DecidableRel r]
    {P : α → α → Prop} (hc : ∀ a b, ¬ r a b → P b a) (x : α) :
    ∀ l : List α, l.Pairwise P → (∀ b ∈ l, P x b) →
      (List.orderedInsert r x l).Pairwise P := by
  intro l
  induction l with
  | nil => intro _ _; simp
  | cons b bs ih =>
    intro hl hx
    rw [List.orderedInsert]
    split_ifs with hrb
    · exact List.pairwise_cons.mpr ⟨hx, hl⟩
    · have hbl := List.pairwise_cons.mp hl
      refine List.pairwise_cons.mpr ⟨?_, ih hbl.2 (fun c hcm => hx c (List.mem_cons_of_mem b hcm))⟩
      intro c hcm
      rcases (List.mem_orderedInsert r).mp hcm with hceq | hcmem
      · exact hceq ▸ hc x b hrb
      · exact hbl.1 c hcmem

theorem pairwise_insertionSort {α : Type} (r : α → α → Prop) [DecidableRel r]
    {P : α → α → Prop} (hc : ∀ a b, ¬ r a b → P b a) :
    ∀ l : List α, l.Pairwise P → (List.insertionSort r l).Pairwise P := by
  intro l
  induction l with
  | nil => intro _; simp
  | cons x xs ih =>
    intro h
    have hp := List.pairwise_cons.mp h
    rw [List.insertionSort]
    exact pairwise_orderedInsert r hc x _ (ih hp.2)
      (fun b hb => hp.1 b ((List.mem_insertionSort r).mp hb))

theorem sortedRegions_pairwise_lt (sel : Dataset) :
    (sortedRegions sel).Pairwise (· < ·) := by
  have hsorted : (sortedRegions sel).Pairwise (· ≤ ·) :=
    List.sorted_insertionSort (· ≤ ·) _
  have hnodup : (sortedRegions sel).Nodup :=
    ((List.perm_insertionSort _ _).nodup_iff).mpr (List.nodup_dedup _)
  exact (hsorted.and hnodup).imp (fun h => lt_of_le_of_ne h.1 h.2)

/-- C8 amended. The regional aggregate is sorted descending by summed
revenue, but ties appear in ascending lexicographic region-name order
(the pandas groupby key order), not in first-seen order. -/
theorem C8_sorted_desc_ties_by_name (sel : Dataset) (_h : sel ≠ []) :
    (sales_by_region sel).Sorted valGe ∧
    (sales_by_region sel).Pairwise (fun a b => a.2 = b.2 → a.1 < b.1) := by
  constructor
  · exact List.sorted_insertionSort valGe _
  · have hc : ∀ a b : String × ℚ, ¬ valGe a b → (b.2 = a.2 → b.1 < a.1) := by
      intro a b hnb heq
      exact absurd (le_of_eq heq) hnb
    apply pairwise_insertionSort valGe hc
    unfold groupSums
    rw [List.pairwise_map]
    refine List.Pairwise.imp ?_ (sortedRegions_pairwise_lt sel)
    intro a b hab _
    exact hab

/-- Witness for the amended C8: at the tied dataset, the aggregate is
descending and its tie is in ascending name order. -/
theorem C8_sorted_desc_ties_by_name_witness :
    tieRegionD ≠ [] ∧
    ((sales_by_region tieRegionD).Sorted valGe ∧
     (sales_by_region tieRegionD).Pairwise (fun a b => a.2 = b.2 → a.1 < b.1)) :=
  ⟨by decide, C8_sorted_desc_ties_by_name tieRegionD (by decide)⟩
